import Mathlib

/-
Verification of the dense-matrix implementation in src/matrix.ts.

The implementation stores a matrix as a JavaScript array of row arrays
(`this.data`).  Rows are objects: several row slots of one matrix (or of
several matrices) can point to the same underlying array, and the factory
`Matrix.empty` in fact creates every row slot pointing at one single
zero-filled array (`new Array(rows).fill(new Array(columns).fill(0))`).
To capture this observable aliasing the embedding keeps an explicit heap
of arrays and represents a matrix as a list of heap addresses, one per
row slot.  Numeric values are modelled as integers: the operations under
study use only addition, multiplication and subtraction, so the integers
carry them exactly.
-/

set_option maxHeartbeats 1000000

deriving instance DecidableEq for Except

namespace Src

/-- Error outcomes the TypeScript methods can surface: the RangeError of
`get` and `put` (index out of range), the RangeError of `add` and
`multiply` (dimension mismatch), the RangeError of `determinant` and
`pow` (matrix not square), and the TypeError raised when `columnCount`
reads the length of `data.at(0)` on a matrix with no rows. -/
inductive MatErr where
  | indexOutOfRange
  | dimensionMismatch
  | notSquare
  | typeError
  deriving DecidableEq, Repr

/-- A JavaScript number as returned by `determinant`: either the NaN
sentinel of the size-0 branch or an ordinary numeric value. -/
inductive JsNum where
  | nan
  | num (q : ℤ)
  deriving DecidableEq, Repr

/-- Shallow embedding of the `Matrix` class of src/matrix.ts.  `refs`
lists, for each row slot of `this.data`, the heap address of the array
object stored there; `heap` maps addresses to array contents.  Two row
slots holding the same address model two slots of `this.data` pointing
at the same JavaScript array. -/
structure Matrix where
  refs : List Nat
  heap : List (List ℤ)
  deriving DecidableEq, Repr

namespace Matrix

/-- The array object stored at row slot `r`, when both the slot and its
address exist (`this.data[r]`). -/
def rowArr (m : Matrix) (r : Nat) : Option (List ℤ) :=
  (m.refs.get? r).bind fun a => m.heap.get? a

/-- Getter `rowCount` returns `this.data.length`. -/
def rowCount (m : Matrix) : Nat := m.refs.length

/-- Getter `columnCount` returns `this.data.at(0)!.length`; `none` models the
TypeError thrown when the matrix has no row 0. -/
def colCount? (m : Matrix) : Option Nat := (m.rowArr 0).map List.length

/-- Unchecked cell access `this.data[r]![c]!` as used inside `multiply`
(meaningful for in-bounds indices of well-formed matrices). -/
def dataAt (m : Matrix) (r c : Nat) : ℤ :=
  (m.heap.getD (m.refs.getD r 0) []).getD c 0

/-- Method `get(row, column)`: bounds-checked read.  The check mirrors
`!(row in this.data) || !(column in this.data[row]!)`. -/
def get (m : Matrix) (r c : Nat) : Except MatErr ℤ :=
  if r < m.refs.length then
    if c < (m.heap.getD (m.refs.getD r 0) []).length then
      .ok ((m.heap.getD (m.refs.getD r 0) []).getD c 0)
    else .error .indexOutOfRange
  else .error .indexOutOfRange

/-- Method `put(row, column, value)`: bounds-checked in-place write.  The write
`this.data[row]![column] = value` mutates the array object, so it updates
the heap entry shared by every row slot holding the same address. -/
def put (m : Matrix) (r c : Nat) (v : ℤ) : Except MatErr Matrix :=
  if r < m.refs.length then
    if c < (m.heap.getD (m.refs.getD r 0) []).length then
      .ok { m with heap := m.heap.set (m.refs.getD r 0) ((m.heap.getD (m.refs.getD r 0) []).set c v) }
    else .error .indexOutOfRange
  else .error .indexOutOfRange

/-- Factory `Matrix.empty(rows, columns)`: `new Array(rows).fill(new
Array(columns).fill(0))` allocates one zero array and stores the same
reference in every row slot. -/
def empty (rows cols : Nat) : Matrix :=
  { refs := List.replicate rows 0, heap := [List.replicate cols 0] }

/-- Construction from explicit row data (`new Matrix([[...], ...])`):
each literal row is its own array object. -/
def fromRows (L : List (List ℤ)) : Matrix :=
  { refs := List.range L.length, heap := L }

/-- The cell contents of the matrix, row by row, dereferencing every row
slot. -/
def values (m : Matrix) : List (List ℤ) :=
  m.refs.map fun a => m.heap.getD a []

/-- Row-major index order of `forEach`: row 0 column 0, row 0 column 1,
..., row 1 column 0, ... -/
def rowMajor (R C : Nat) : List (Nat × Nat) :=
  (List.range R).flatMap fun x => (List.range C).map fun y => (x, y)

/-- Method `map(callback)`: reads `this.columnCount` (TypeError on a 0-row
matrix), builds `Matrix.empty(this.rowCount, this.columnCount)` and
`put`s `callback(this.get(x,y), x, y)` into it in row-major order. -/
def mapIdx (m : Matrix) (f : ℤ → Nat → Nat → Except MatErr ℤ) :
    Except MatErr Matrix :=
  match m.colCount? with
  | none => .error .typeError
  | some C =>
    (rowMajor m.rowCount C).foldlM
      (fun id xy => do
        let v ← m.get xy.1 xy.2
        let w ← f v xy.1 xy.2
        id.put xy.1 xy.2 w)
      (empty m.rowCount C)

/-- Method `add(matrix)`: checks `this.rowCount !== matrix.rowCount ||
this.columnCount !== matrix.columnCount`, then returns
`Matrix.empty(this.rowCount, this.columnCount).map((value, x, y) =>
value + matrix.get(x, y))`. -/
def add (a b : Matrix) : Except MatErr Matrix :=
  if a.rowCount ≠ b.rowCount then .error .dimensionMismatch
  else match a.colCount? with
    | none => .error .typeError
    | some ca =>
      match b.colCount? with
      | none => .error .typeError
      | some cb =>
        if ca ≠ cb then .error .dimensionMismatch
        else (empty a.rowCount ca).mapIdx fun v x y =>
          (b.get x y).map fun w => v + w

/-- Method `scalar(value)`: `this.map(content => value * content)`. -/
def scalar (m : Matrix) (k : ℤ) : Except MatErr Matrix :=
  m.mapIdx fun v _ _ => .ok (k * v)

/-- Method `row(n)` returns `this.data[n]`: the reference to the stored row
array itself, not a copy. -/
def row (m : Matrix) (n : Nat) : Option Nat := m.refs.get? n

/-- The value sequence produced by `column(n)`:
`this.data.map(x => x[column]!)`. -/
def column (m : Matrix) (n : Nat) : List ℤ :=
  m.refs.map fun a => (m.heap.getD a []).getD n 0

/-- Method `column(n)` allocates a brand-new array for its result; the pair is
the extended heap together with the fresh address. -/
def columnAlloc (m : Matrix) (n : Nat) : Matrix × Nat :=
  ({ m with heap := m.heap ++ [m.column n] }, m.heap.length)

/-- An external caller writing `arr[i] = v` through a reference `a` to
an array object of the matrix's heap. -/
def writeArr (m : Matrix) (a i : Nat) (v : ℤ) : Matrix :=
  { m with heap := m.heap.set a ((m.heap.getD a []).set i v) }

/-- Method `multiply(matrix)`: checks `this.columnCount !== matrix.rowCount`,
reads `matrix.columnCount`, then fills a fresh nested array with
`m[r][c] += this.data[r]![i]! * matrix.data[i]![c]!` for ascending `i`,
accumulator initialised to 0, and wraps it with `Matrix.from`. -/
def multiply (a b : Matrix) : Except MatErr Matrix :=
  match a.colCount? with
  | none => .error .typeError
  | some ac =>
    if ac ≠ b.rowCount then .error .dimensionMismatch
    else match b.colCount? with
      | none => .error .typeError
      | some bc =>
        .ok (fromRows ((List.range a.rowCount).map fun r =>
          (List.range bc).map fun c =>
            (List.range ac).foldl
              (fun acc i => acc + a.dataAt r i * b.dataAt i c) 0))

/-- Method `determinant()`: checks `this.rowCount !== this.columnCount`
(reading `columnCount` throws the TypeError on a 0-row matrix), then
switches on the size: 0 yields NaN, 1 the sole element, 2 the formula
`get(0,0)*get(1,1) - get(0,1)*get(1,0)`, anything larger the
placeholder 0. -/
def determinant (m : Matrix) : Except MatErr JsNum :=
  match m.colCount? with
  | none => .error .typeError
  | some c =>
    if m.rowCount ≠ c then .error .notSquare
    else match m.rowCount with
      | 0 => .ok .nan
      | 1 => (m.get 0 0).map .num
      | 2 => do
          let a ← m.get 0 0
          let d ← m.get 1 1
          let b ← m.get 0 1
          let c2 ← m.get 1 0
          pure (.num (a * d - b * c2))
      | _ => .ok (.num 0)

/-- Factory `Matrix.identity(size)`:
`Matrix.empty(size, size).map((_, x, y) => x === y ? 1 : 0)`. -/
def identity (n : Nat) : Except MatErr Matrix :=
  (empty n n).mapIdx fun _ x y => .ok (if x = y then (1 : ℤ) else 0)

/-- The loop `while (--amount) id = id.multiply(this)` of `pow`,
instrumented with a fuel bound and a count of performed
multiplications; `none` means the loop was still running when the fuel
ran out.  The counter is decremented before the zero test, exactly as in
the source. -/
def powLoop (base : Matrix) :
    Nat → ℤ → Matrix → Nat → Option (Except MatErr (Matrix × Nat))
  | 0, _, _, _ => none
  | fuel + 1, amount, id, cnt =>
    let a := amount - 1
    if a = 0 then some (.ok (id, cnt))
    else match id.multiply base with
      | .error e => some (.error e)
      | .ok id2 => powLoop base fuel a id2 (cnt + 1)

/-- Method `pow(amount)`: checks `this.rowCount !== this.columnCount`, then
runs the decrement-before-test loop starting from `id = this`. -/
def pow (m : Matrix) (amount : ℤ) (fuel : Nat) :
    Option (Except MatErr (Matrix × Nat)) :=
  match m.colCount? with
  | none => some (.error .typeError)
  | some c =>
    if m.rowCount ≠ c then some (.error .notSquare)
    else powLoop m fuel amount m 0

/-- The in-place update loop of `addRow`: `rowManipulated[i] +=
byRowxFactor[i]` for every index `i` of the factored snapshot. -/
def addRowArr (dst snap : List ℤ) : List ℤ :=
  (dst.zipWith (· + ·) snap) ++ dst.drop snap.length

/-- Method `addRow({manipulated, row2: [r2, multiplyfact]})`: takes the live
array of the manipulated row, a fresh factored copy of row `r2`
(snapshot taken before any write), and adds the copy into the live
array element by element. -/
def addRow (m : Matrix) (manipulated r2 : Nat) (factor : ℤ) : Matrix :=
  let a := m.refs.getD manipulated 0
  let dst := m.heap.getD a []
  let snap := (m.heap.getD (m.refs.getD r2 0) []).map fun x => x * factor
  { m with heap := m.heap.set a (addRowArr dst snap) }

/-- The success branch of `multiply` as a total function on matrices;
`multiply` returns exactly this matrix when its shape checks pass. -/
def mulF (a b : Matrix) : Matrix :=
  fromRows ((List.range a.rowCount).map fun r =>
    (List.range ((b.values.getD 0 []).length)).map fun c =>
      (List.range ((a.values.getD 0 []).length)).foldl
        (fun acc i => acc + a.dataAt r i * b.dataAt i c) 0)

/-- Iterated self-multiplication: the value of `id` after `j` passes of
the loop body `id = id.multiply(base)`. -/
def mIter (base id : Matrix) : Nat → Matrix
  | 0 => id
  | j + 1 => mulF (mIter base id j) base

/-- Value-level matrix product of two rectangular grids of rationals,
with the same index ranges as `multiply`. -/
def vmulSpec (A B : List (List ℤ)) : List (List ℤ) :=
  (List.range A.length).map fun r =>
    (List.range ((B.getD 0 []).length)).map fun c =>
      (List.range ((A.getD 0 []).length)).foldl
        (fun acc i => acc + (A.getD r []).getD i 0 * (B.getD i []).getD c 0) 0

/-- Value-level matrix power: `vpowSpec S j` is the (j+1)-th power of
the grid `S`, the product of `j + 1` copies of `S`. -/
def vpowSpec (S : List (List ℤ)) : Nat → List (List ℤ)
  | 0 => S
  | j + 1 => vmulSpec (vpowSpec S j) S

/-- All row slots of the matrix dereference to the same array contents
(the shape every matrix produced by `map` has). -/
def allRowsEq (m : Matrix) : Prop :=
  ∀ i j, i < m.refs.length → j < m.refs.length → m.rowArr i = m.rowArr j

end Matrix

end Src

namespace Src

namespace Matrix

lemma ok_bind {ε α β : Type} (v : α) (f : α → Except ε β) :
    (Except.ok v >>= f : Except ε β) = f v := rfl

lemma error_bind {ε α β : Type} (e : ε) (f : α → Except ε β) :
    ((Except.error e : Except ε α) >>= f : Except ε β) = .error e := rfl

lemma getD_replicate_lt {α : Type} (x d : α) {n i : Nat} (h : i < n) :
    (List.replicate n x).getD i d = x := by
  simp [List.getD_eq_getElem?_getD, List.getElem?_replicate, h]

lemma getD_set_self {α : Type} (d v : α) (l : List α) {i : Nat}
    (h : i < l.length) : (l.set i v).getD i d = v := by
  simp [List.getD_eq_getElem?_getD, List.getElem?_set_self h]

lemma getD_set_ne {α : Type} (d v : α) (l : List α) {i j : Nat} (h : i ≠ j) :
    (l.set i v).getD j d = l.getD j d := by
  simp [List.getD_eq_getElem?_getD, List.getElem?_set_ne h]

/-- Results reachable through a `foldlM` over `Except` keep any property
that every successful step keeps. -/
lemma foldlM_except_inv {α β : Type} {ε : Type} (step : β → α → Except ε β)
    (P : β → Prop)
    (hstep : ∀ b x b', step b x = .ok b' → P b → P b') :
    ∀ (l : List α) (init res : β),
      l.foldlM step init = .ok res → P init → P res := by
  intro l
  induction l with
  | nil =>
    intro init res h hP
    simp only [List.foldlM_nil] at h
    cases h
    exact hP
  | cons x xs ih =>
    intro init res h hP
    rw [List.foldlM_cons] at h
    cases hs : step init x with
    | error e => rw [hs, error_bind] at h; cases h
    | ok b =>
      rw [hs, ok_bind] at h
      exact ih b res h (hstep _ _ _ hs hP)

lemma put_refs {m m' : Matrix} {r c : Nat} {v : ℤ}
    (h : m.put r c v = .ok m') : m'.refs = m.refs := by
  unfold put at h
  split at h
  · split at h
    · cases h; rfl
    · cases h
  · cases h

/-- One pass of the body of `map` does not change the row references of
the matrix being filled. -/
lemma mapIdx_step_refs {m id b' : Matrix}
    {f : ℤ → Nat → Nat → Except MatErr ℤ} {xy : Nat × Nat}
    (h : (do
        let v ← m.get xy.1 xy.2
        let w ← f v xy.1 xy.2
        id.put xy.1 xy.2 w) = Except.ok b') : b'.refs = id.refs := by
  cases hg : m.get xy.1 xy.2 with
  | error e => rw [hg, error_bind] at h; cases h
  | ok v =>
    rw [hg, ok_bind] at h
    cases hf : f v xy.1 xy.2 with
    | error e => rw [hf, error_bind] at h; cases h
    | ok w =>
      rw [hf, ok_bind] at h
      exact put_refs h

/-- Every matrix `map` returns has all row slots pointing at heap
address 0, the single array that `Matrix.empty` allocated for it. -/
lemma mapIdx_refs {m res : Matrix} {f : ℤ → Nat → Nat → Except MatErr ℤ}
    (h : m.mapIdx f = .ok res) : res.refs = List.replicate m.rowCount 0 := by
  unfold mapIdx at h
  cases hc : m.colCount? with
  | none => rw [hc] at h; cases h
  | some C =>
    rw [hc] at h
    have := foldlM_except_inv
      (fun id xy => do
        let v ← m.get xy.1 xy.2
        let w ← f v xy.1 xy.2
        id.put xy.1 xy.2 w)
      (fun id => id.refs = List.replicate m.rowCount 0)
      (fun b xy b' hs hP => (mapIdx_step_refs hs).trans hP)
      (rowMajor m.rowCount C) (empty m.rowCount C) res h rfl
    exact this

lemma rowArr_of_refs_replicate {m : Matrix} {R : Nat}
    (h : m.refs = List.replicate R 0) : m.allRowsEq := by
  intro i j hi hj
  rw [h] at hi hj
  simp only [List.length_replicate] at hi hj
  simp [rowArr, h, List.get?_eq_getElem?, List.getElem?_replicate, hi, hj]

lemma mapIdx_allRowsEq {m res : Matrix} {f : ℤ → Nat → Nat → Except MatErr ℤ}
    (h : m.mapIdx f = .ok res) : res.allRowsEq :=
  rowArr_of_refs_replicate (mapIdx_refs h)

lemma addRowArr_len (dst snap : List ℤ) (C : Nat) (hd : dst.length = C)
    (hs : snap.length = C) : (addRowArr dst snap).length = C := by
  simp only [addRowArr, List.length_append, List.length_zipWith,
    List.length_drop, hd, hs]
  omega

lemma addRowArr_getD (dst snap : List ℤ) (i : Nat) (hd : i < dst.length)
    (hs : i < snap.length) :
    (addRowArr dst snap).getD i 0 = dst.getD i 0 + snap.getD i 0 := by
  have hiz : i < (List.zipWith (· + ·) dst snap).length := by
    rw [List.length_zipWith]; omega
  unfold addRowArr
  rw [List.getD_append _ _ _ _ hiz, List.getD_eq_getElem _ _ hiz,
    List.getElem_zipWith, List.getD_eq_getElem _ _ hd,
    List.getD_eq_getElem _ _ hs]

lemma getD_map_mul (src : List ℤ) (factor : ℤ) (i : Nat)
    (hi : i < src.length) :
    (src.map fun x => x * factor).getD i 0 = src.getD i 0 * factor := by
  rw [List.getD_eq_getElem _ _ (by simpa using hi), List.getElem_map,
    List.getD_eq_getElem _ _ (hi)]

lemma add_allRowsEq {a b res : Matrix} (h : a.add b = .ok res) :
    res.allRowsEq := by
  unfold add at h
  split at h
  · cases h
  · cases hca : a.colCount? with
    | none => rw [hca] at h; cases h
    | some ca =>
      rw [hca] at h
      dsimp only at h
      cases hcb : b.colCount? with
      | none => rw [hcb] at h; cases h
      | some cb =>
        rw [hcb] at h
        dsimp only at h
        split at h
        · cases h
        · exact mapIdx_allRowsEq h

lemma colCount?_parts {m : Matrix} {c : Nat} (h : m.colCount? = some c) :
    ∃ a0 row0, m.refs.get? 0 = some a0 ∧ m.heap.get? a0 = some row0 ∧
      row0.length = c := by
  unfold colCount? rowArr at h
  cases h0 : m.refs.get? 0 with
  | none => rw [h0] at h; cases h
  | some a0 =>
    rw [h0] at h
    dsimp only [Option.bind] at h
    cases h1 : m.heap.get? a0 with
    | none => rw [h1] at h; cases h
    | some row0 =>
      rw [h1] at h
      exact ⟨a0, row0, rfl, h1, by cases h; rfl⟩

lemma colCount?_rowCount_pos {m : Matrix} {c : Nat}
    (h : m.colCount? = some c) : 0 < m.rowCount := by
  obtain ⟨a0, row0, h0, -, -⟩ := colCount?_parts h
  have := List.get?_eq_some.mp h0
  exact this.1

lemma values_length (m : Matrix) : m.values.length = m.rowCount :=
  List.length_map _ _

lemma values_getD_zero {m : Matrix} {c : Nat} (h : m.colCount? = some c) :
    (m.values.getD 0 []).length = c := by
  obtain ⟨a0, row0, h0, h1, hlen⟩ := colCount?_parts h
  have h0e : m.refs[0]? = some a0 := by rw [← List.get?_eq_getElem?]; exact h0
  have h1e : m.heap[a0]? = some row0 := by
    rw [← List.get?_eq_getElem?]; exact h1
  rw [List.getD_eq_getElem?_getD]
  unfold values
  rw [List.getElem?_map, h0e]
  simp only [Option.map_some', Option.getD_some]
  rw [List.getD_eq_getElem?_getD, h1e]
  simp only [Option.getD_some]
  exact hlen

lemma values_fromRows (L : List (List ℤ)) : (fromRows L).values = L := by
  apply List.ext_getElem
  · simp [values, fromRows]
  · intro i h1 h2
    simp only [values, fromRows, List.getElem_map, List.getElem_range]
    rw [List.getD_eq_getElem _ _ (h2)]

lemma dataAt_eq_values {m : Matrix} {r : Nat} (c : Nat)
    (hr : r < m.refs.length) :
    m.dataAt r c = (m.values.getD r []).getD c 0 := by
  unfold dataAt
  have hv : m.values.getD r [] = m.heap.getD (m.refs.getD r 0) [] := by
    unfold values
    rw [List.getD_eq_getElem _ _ (by simpa using hr), List.getElem_map,
      List.getD_eq_getElem _ _ (hr)]
  rw [hv]

lemma multiply_eq_mulF {a b : Matrix} {ac bc : Nat}
    (ha : a.colCount? = some ac) (hb : b.rowCount = ac)
    (hbc : b.colCount? = some bc) : a.multiply b = .ok (mulF a b) := by
  unfold multiply mulF
  rw [ha]
  dsimp only
  rw [if_neg (by rw [hb]; exact fun hh => hh rfl)]
  rw [hbc]
  dsimp only
  rw [values_getD_zero ha, values_getD_zero hbc]

lemma mulF_rowCount (a b : Matrix) : (mulF a b).rowCount = a.rowCount := by
  simp [mulF, fromRows, rowCount]

lemma fromRows_colCount? (L : List (List ℤ)) (h : 0 < L.length) :
    (fromRows L).colCount? = some ((L.getD 0 []).length) := by
  unfold colCount? rowArr fromRows
  dsimp only
  rw [List.get?_eq_getElem?, List.getElem?_range h]
  dsimp only [Option.bind]
  rw [List.get?_eq_getElem?, List.getElem?_eq_getElem h]
  rw [List.getD_eq_getElem _ _ (h)]
  rfl

lemma mulF_colCount? (a b : Matrix) (h : 0 < a.rowCount) :
    (mulF a b).colCount? = some ((b.values.getD 0 []).length) := by
  unfold mulF
  rw [fromRows_colCount? _ (by simpa using h)]
  congr 1
  rw [List.getD_eq_getElem _ _ (by simpa using h), List.getElem_map]
  simp

lemma mulF_values (a b : Matrix)
    (hle : (a.values.getD 0 []).length ≤ b.refs.length) :
    (mulF a b).values = vmulSpec a.values b.values := by
  unfold mulF vmulSpec
  rw [values_fromRows, values_length]
  apply List.map_congr_left
  intro r hr
  have hrlt : r < a.rowCount := by simpa using List.mem_range.mp hr
  apply List.map_congr_left
  intro c _
  apply List.foldl_ext
  intro acc i hi
  have hilt : i < b.refs.length :=
    lt_of_lt_of_le (by simpa using List.mem_range.mp hi) hle
  rw [dataAt_eq_values i hrlt, dataAt_eq_values c hilt]

lemma mIter_shift (base id : Matrix) :
    ∀ j, mIter base (mulF id base) j = mIter base id (j + 1) := by
  intro j
  induction j with
  | zero => rfl
  | succ j ih => show mulF (mIter base (mulF id base) j) base = _; rw [ih]; rfl

lemma pow_eq_powLoop {m : Matrix} (h : m.colCount? = some m.rowCount)
    (amt : ℤ) (fuel : Nat) : m.pow amt fuel = powLoop m fuel amt m 0 := by
  unfold pow
  rw [h]
  dsimp only
  rw [if_neg (fun hh => hh rfl)]

/-- The decrement-before-test loop, started on amount j + 1 with enough
fuel, performs exactly j multiplications and returns the j-fold
self-product. -/
lemma powLoop_ok (base : Matrix) (n : Nat) (hb : base.colCount? = some n)
    (hbr : base.rowCount = n) :
    ∀ (j fuel : Nat) (id : Matrix) (cnt : Nat), j + 1 ≤ fuel →
      id.rowCount = n → id.colCount? = some n →
      powLoop base fuel ((j : ℤ) + 1) id cnt =
          some (.ok (mIter base id j, cnt + j)) ∧
      (mIter base id j).rowCount = n ∧
      (mIter base id j).colCount? = some n := by
  intro j
  induction j with
  | zero =>
    intro fuel id cnt hfuel hidr hidc
    obtain ⟨f, rfl⟩ : ∃ f, fuel = f + 1 := ⟨fuel - 1, by omega⟩
    refine ⟨?_, hidr, hidc⟩
    have hstep : powLoop base (f + 1) (((0 : Nat) : ℤ) + 1) id cnt =
        (if (((0 : Nat) : ℤ) + 1) - 1 = 0 then some (.ok (id, cnt))
         else match id.multiply base with
           | .error e => some (.error e)
           | .ok id2 =>
              powLoop base f ((((0 : Nat) : ℤ) + 1) - 1) id2 (cnt + 1)) :=
      rfl
    rw [hstep, if_pos (by norm_num)]
    rfl
  | succ j ih =>
    intro fuel id cnt hfuel hidr hidc
    obtain ⟨f, rfl⟩ : ∃ f, fuel = f + 1 := ⟨fuel - 1, by omega⟩
    have hmul : id.multiply base = .ok (mulF id base) :=
      multiply_eq_mulF hidc (by omega) hb
    have hpos : 0 < id.rowCount := by
      rw [hidr, ← hbr]
      exact colCount?_rowCount_pos hb
    have hidr2 : (mulF id base).rowCount = n := by
      rw [mulF_rowCount, hidr]
    have hidc2 : (mulF id base).colCount? = some n := by
      rw [mulF_colCount? _ _ hpos, values_getD_zero hb]
    have hrec := ih f (mulF id base) (cnt + 1) (by omega) hidr2 hidc2
    refine ⟨?_, ?_, ?_⟩
    · have hstep : powLoop base (f + 1) (((j + 1 : Nat) : ℤ) + 1) id cnt =
          (if (((j + 1 : Nat) : ℤ) + 1) - 1 = 0 then some (.ok (id, cnt))
           else match id.multiply base with
             | .error e => some (.error e)
             | .ok id2 =>
                powLoop base f ((((j + 1 : Nat) : ℤ) + 1) - 1) id2 (cnt + 1)) :=
        rfl
      rw [hstep, if_neg (by push_cast; omega), hmul]
      have harith : (((j + 1 : Nat) : ℤ) + 1) - 1 = (j : ℤ) + 1 := by
        push_cast
        ring
      show powLoop base f ((((j + 1 : Nat) : ℤ) + 1) - 1) (mulF id base)
        (cnt + 1) = _
      rw [harith, hrec.1, mIter_shift]
      have hcnt : cnt + 1 + j = cnt + (j + 1) := by omega
      rw [hcnt]
    · rw [← mIter_shift]; exact hrec.2.1
    · rw [← mIter_shift]; exact hrec.2.2

/-- With a non-positive amount the decrement-before-test loop never
reaches zero again: it runs until any fuel bound is exhausted. -/
lemma powLoop_nonpos (base : Matrix) (n : Nat)
    (hb : base.colCount? = some n) (hbr : base.rowCount = n) :
    ∀ (fuel : Nat) (amt : ℤ) (id : Matrix) (cnt : Nat), amt ≤ 0 →
      id.rowCount = n → id.colCount? = some n →
      powLoop base fuel amt id cnt = none := by
  intro fuel
  induction fuel with
  | zero => intro amt id cnt _ _ _; rfl
  | succ f ih =>
    intro amt id cnt hamt hidr hidc
    have hmul : id.multiply base = .ok (mulF id base) :=
      multiply_eq_mulF hidc (by omega) hb
    have hpos : 0 < id.rowCount := by
      rw [hidr, ← hbr]
      exact colCount?_rowCount_pos hb
    have hstep : powLoop base (f + 1) amt id cnt =
        (if amt - 1 = 0 then some (.ok (id, cnt))
         else match id.multiply base with
           | .error e => some (.error e)
           | .ok id2 => powLoop base f (amt - 1) id2 (cnt + 1)) :=
      rfl
    rw [hstep, if_neg (by omega), hmul]
    show powLoop base f (amt - 1) (mulF id base) (cnt + 1) = none
    exact ih (amt - 1) (mulF id base) (cnt + 1) (by omega)
      (by rw [mulF_rowCount, hidr])
      (by rw [mulF_colCount? _ _ hpos, values_getD_zero hb])

/-- Value-level facts about the loop iterates: the j-th iterate holds
the (j+1)-th matrix power of the start value. -/
lemma mIter_values (m : Matrix) (n : Nat) (hm : m.colCount? = some n)
    (hr : m.rowCount = n) :
    ∀ j, (mIter m m j).values = vpowSpec m.values j ∧
      (mIter m m j).rowCount = n ∧ (mIter m m j).colCount? = some n := by
  intro j
  induction j with
  | zero => exact ⟨rfl, hr, hm⟩
  | succ j ih =>
    have hpos : 0 < (mIter m m j).rowCount := by
      rw [ih.2.1, ← hr]
      exact colCount?_rowCount_pos hm
    have hle2 : ((mIter m m j).values.getD 0 []).length ≤ m.refs.length := by
      rw [values_getD_zero ih.2.2, ← hr]
      exact Nat.le_refl _
    refine ⟨?_, ?_, ?_⟩
    · show (mulF (mIter m m j) m).values = vmulSpec (vpowSpec m.values j) m.values
      rw [mulF_values _ _ hle2, ih.1]
    · show (mulF (mIter m m j) m).rowCount = n
      rw [mulF_rowCount, ih.2.1]
    · show (mulF (mIter m m j) m).colCount? = some n
      rw [mulF_colCount? _ _ hpos, values_getD_zero hm]

end Matrix

/-- C1: on a matrix returned by `Matrix.empty`, `put(0,0,5)` followed by
`get(0,0)` does return 5, but the supposedly untouched cell (1,0) — which
held 0 before — now also reads 5, because both row slots point at the
same array.  This refutes the frame part of the claim on an
interface-produced matrix. -/
theorem empty_put_leaks_across_rows :
    (Matrix.empty 2 1).get 1 0 = .ok 0 ∧
    (Matrix.empty 2 1).put 0 0 5 = .ok { refs := [0, 0], heap := [[5]] } ∧
    ({ refs := [0, 0], heap := [[5]] } : Matrix).get 0 0 = .ok 5 ∧
    ({ refs := [0, 0], heap := [[5]] } : Matrix).get 1 0 = .ok 5 := by
  decide

/-- C2: on same-sized operands `[[1,2],[3,4]]` and `[[5,6],[7,8]]`, `add`
does not return the element-wise sum `[[6,8],[10,12]]`: it maps over the
zero matrix `id` instead of `this`, and the shared-row `empty` collapses
the result, so every row of the output equals the last row of the
argument. -/
theorem add_ignores_receiver_and_shares_rows :
    (Matrix.fromRows [[1, 2], [3, 4]]).add (Matrix.fromRows [[5, 6], [7, 8]]) =
      .ok { refs := [0, 0], heap := [[7, 8]] } ∧
    ({ refs := [0, 0], heap := [[7, 8]] } : Matrix).values = [[7, 8], [7, 8]] ∧
    [[(7 : ℤ), 8], [7, 8]] ≠ [[1 + 5, 2 + 6], [3 + 7, 4 + 8]] := by
  decide

/-- C3: `identity(2)` is not the 2-by-2 identity matrix: because `map`
fills one shared row array, it evaluates to `[[0,1],[0,1]]`, and
multiplying it with `[[1,2],[3,4]]` yields `[[3,4],[3,4]]`, not the
original matrix. -/
theorem identity_two_is_not_identity :
    Matrix.identity 2 = .ok { refs := [0, 0], heap := [[0, 1]] } ∧
    ({ refs := [0, 0], heap := [[0, 1]] } : Matrix).values = [[0, 1], [0, 1]] ∧
    ({ refs := [0, 0], heap := [[0, 1]] } : Matrix).multiply
        (Matrix.fromRows [[1, 2], [3, 4]]) =
      .ok (Matrix.fromRows [[3, 4], [3, 4]]) ∧
    (Matrix.fromRows [[3, 4], [3, 4]]).values ≠
      (Matrix.fromRows [[1, 2], [3, 4]]).values := by
  decide

/-- C4: `scalar(1)` applied to `[[1,2],[3,4]]` is not the identity
transform: the shared-row `empty` underneath `map` collapses the result
to `[[3,4],[3,4]]`.  The `scalar(0)` half of the claim does hold on this
input: the result has every cell 0 (all rows being the one shared zero
row). -/
theorem scalar_one_is_not_identity_transform :
    (Matrix.fromRows [[1, 2], [3, 4]]).scalar 1 =
      .ok { refs := [0, 0], heap := [[3, 4]] } ∧
    ({ refs := [0, 0], heap := [[3, 4]] } : Matrix).values = [[3, 4], [3, 4]] ∧
    ({ refs := [0, 0], heap := [[3, 4]] } : Matrix).values ≠
      (Matrix.fromRows [[1, 2], [3, 4]]).values ∧
    (Matrix.fromRows [[1, 2], [3, 4]]).scalar 0 =
      .ok { refs := [0, 0], heap := [[0, 0]] } ∧
    ({ refs := [0, 0], heap := [[0, 0]] } : Matrix).values = [[0, 0], [0, 0]] := by
  decide

/-- C5: every row slot of `Matrix.empty(rows, columns)` holds the same
reference, so a `put` through one row is visible through every row; and
every matrix built by `map` — hence by `identity`, `scalar` and `add` —
has all of its rows equal to each other. -/
theorem empty_rows_shared_and_map_rows_equal (rows cols : Nat)
    (h2 : 2 ≤ rows) (h1 : 1 ≤ cols) :
    (∀ i j, i < rows → j < rows →
        (Matrix.empty rows cols).refs.getD i 0 =
          (Matrix.empty rows cols).refs.getD j 0) ∧
    (∀ r c (v : ℤ), r < rows → c < cols →
        ∃ m', (Matrix.empty rows cols).put r c v = .ok m' ∧
          ∀ r2, r2 < rows → m'.get r2 c = .ok v) ∧
    (∀ (m res : Matrix) (f : ℤ → Nat → Nat → Except MatErr ℤ),
        m.mapIdx f = .ok res → res.allRowsEq) ∧
    (∀ (n : Nat) (res : Matrix), Matrix.identity n = .ok res → res.allRowsEq) ∧
    (∀ (m res : Matrix) (k : ℤ), m.scalar k = .ok res → res.allRowsEq) ∧
    (∀ (a b res : Matrix), a.add b = .ok res → res.allRowsEq) := by
  refine ⟨?_, ?_, ?_, ?_, ?_, ?_⟩
  · intro i j hi hj
    simp [Matrix.empty, Matrix.getD_replicate_lt _ _ hi,
      Matrix.getD_replicate_lt _ _ hj]
  · intro r c v hr hc
    refine ⟨{ refs := List.replicate rows 0,
              heap := [(List.replicate cols 0).set c v] }, ?_, ?_⟩
    · simp [Matrix.empty, Matrix.put, hr, hc,
        Matrix.getD_replicate_lt 0 0 hr]
    · intro r2 hr2
      simp [Matrix.get, hr2, hc,
        Matrix.getD_replicate_lt 0 0 hr2,
        Matrix.getD_set_self 0 v (List.replicate cols 0)
          (by simpa using hc)]
  · intro m res f h
    exact Matrix.mapIdx_allRowsEq h
  · intro n res h
    exact Matrix.mapIdx_allRowsEq h
  · intro m res k h
    exact Matrix.mapIdx_allRowsEq h
  · intro a b res h
    exact Matrix.add_allRowsEq h

/-- Witness for C5 at rows = 2, cols = 1: a put through row 0 of the
empty 2-by-1 matrix is read back through row 1. -/
theorem empty_rows_shared_witness :
    ∃ m', (Matrix.empty 2 1).put 0 0 5 = .ok m' ∧
      ∀ r2, r2 < 2 → m'.get r2 0 = .ok 5 :=
  (empty_rows_shared_and_map_rows_equal 2 1 (by decide) (by decide)).2.1
    0 0 5 (by decide) (by decide)

/-- C8 counterexample: on the 0-by-0 matrix, `determinant` does not
return the NaN sentinel.  Reading `columnCount` dereferences
`data.at(0)`, which is undefined when there are no rows, so the call
dies with a TypeError before the size switch is reached. -/
theorem determinant_size_zero_typeerror_cx :
    (Matrix.empty 0 0).rowCount = 0 ∧
    (Matrix.empty 0 0).determinant = .error .typeError ∧
    (Matrix.empty 0 0).determinant ≠ .ok JsNum.nan := by
  decide

/-- C8, amended: `determinant` fails with the not-square error whenever
the column count exists and differs from the row count; on a matrix with
no rows it fails with a TypeError instead of returning NaN (the size-0
branch is unreachable); on square sizes 1 and 2 it returns the sole
element and the standard 2-by-2 formula, as on the two concrete
examples. -/
theorem determinant_cases :
    (∀ (m : Matrix) (c : Nat), m.colCount? = some c → m.rowCount ≠ c →
        m.determinant = .error .notSquare) ∧
    (∀ m : Matrix, m.colCount? = none → m.determinant = .error .typeError) ∧
    (∀ (m : Matrix) (q : ℤ), m.rowCount = 1 → m.colCount? = some 1 →
        m.get 0 0 = .ok q → m.determinant = .ok (.num q)) ∧
    (∀ (m : Matrix) (a b c d : ℤ), m.rowCount = 2 → m.colCount? = some 2 →
        m.get 0 0 = .ok a → m.get 1 1 = .ok d → m.get 0 1 = .ok b →
        m.get 1 0 = .ok c → m.determinant = .ok (.num (a * d - b * c))) ∧
    (Matrix.fromRows [[1, 2], [3, 4]]).determinant = .ok (.num (-2)) ∧
    (Matrix.fromRows [[5]]).determinant = .ok (.num 5) ∧
    (Matrix.empty 0 0).determinant = .error .typeError := by
  refine ⟨?_, ?_, ?_, ?_, by decide, by decide, by decide⟩
  · intro m c hcol hne
    simp [Matrix.determinant, hcol, hne]
  · intro m hcol
    simp [Matrix.determinant, hcol]
  · intro m q h1 hcol hget
    simp [Matrix.determinant, hcol, h1, hget]
    rfl
  · intro m a b c d h2 hcol hga hgd hgb hgc
    unfold Matrix.determinant
    rw [hcol]
    dsimp only
    rw [h2]
    dsimp only
    rw [if_neg (by decide)]
    rw [hga, Matrix.ok_bind, hgd, Matrix.ok_bind, hgb, Matrix.ok_bind,
      hgc, Matrix.ok_bind]
    rfl

/-- Witness for C8 on the concrete matrix `[[1,2],[3,4]]` through the
size-2 branch of the amended statement. -/
theorem determinant_cases_witness :
    (Matrix.fromRows [[1, 2], [3, 4]]).determinant =
      .ok (.num ((1 : ℤ) * 4 - 2 * 3)) :=
  determinant_cases.2.2.2.1 (Matrix.fromRows [[1, 2], [3, 4]]) 1 2 3 4
    (by decide) (by decide) (by decide) (by decide) (by decide) (by decide)

/-- C9 counterexample: on a matrix produced by `Matrix.empty(2,1)` and a
`put`, whose two row slots share one array, `addRow` on row 0 also
changes row 1 (from 1 to 2), refuting the claim that every row other
than the manipulated one is left unchanged. -/
theorem addRow_shared_rows_cx :
    (Matrix.empty 2 1).put 0 0 1 = .ok { refs := [0, 0], heap := [[1]] } ∧
    (({ refs := [0, 0], heap := [[1]] } : Matrix).addRow 0 1 1).get 1 0 =
      .ok 2 ∧
    ({ refs := [0, 0], heap := [[1]] } : Matrix).get 1 0 = .ok 1 := by
  decide

/-- C9, amended: on a rectangular matrix whose row slots reference
pairwise distinct arrays (as any matrix built from explicit row data
does), `addRow({manipulated, row2: [source, factor]})` replaces each
cell i of the manipulated row, in place, by its old value plus the old
value of cell i of the source row times the factor, and leaves every
other row unchanged; on matrices with shared row arrays the aliased
rows change as well.  The concrete example of the claim holds. -/
theorem addRow_inplace_spec (m : Matrix) (man r2 : Nat) (factor : ℤ)
    (C : Nat)
    (hWF : ∀ a ∈ m.refs, a < m.heap.length)
    (hrect : ∀ a ∈ m.refs, (m.heap.getD a []).length = C)
    (hnd : m.refs.Nodup)
    (hman : man < m.refs.length) (hr2 : r2 < m.refs.length) :
    (∀ i, i < C →
        (m.addRow man r2 factor).get man i =
          .ok (m.dataAt man i + m.dataAt r2 i * factor)) ∧
    (∀ r, r < m.refs.length → r ≠ man → ∀ c,
        (m.addRow man r2 factor).get r c = m.get r c) ∧
    ((Matrix.fromRows [[1, 2], [3, 4]]).addRow 0 1 (-2)).values =
      [[-5, -6], [3, 4]] := by
  have hmemMan : m.refs.getD man 0 ∈ m.refs := by
    rw [List.getD_eq_getElem _ _ (hman)]
    exact m.refs.getElem_mem hman
  have hmemR2 : m.refs.getD r2 0 ∈ m.refs := by
    rw [List.getD_eq_getElem _ _ (hr2)]
    exact m.refs.getElem_mem hr2
  have haLt : m.refs.getD man 0 < m.heap.length := hWF _ hmemMan
  have hdstLen : (m.heap.getD (m.refs.getD man 0) []).length = C :=
    hrect _ hmemMan
  have hsrcLen : (m.heap.getD (m.refs.getD r2 0) []).length = C :=
    hrect _ hmemR2
  have hbodyLen :
      (Matrix.addRowArr (m.heap.getD (m.refs.getD man 0) [])
        ((m.heap.getD (m.refs.getD r2 0) []).map fun x => x * factor)).length
        = C :=
    Matrix.addRowArr_len _ _ C hdstLen (by simpa using hsrcLen)
  refine ⟨?_, ?_, by decide⟩
  · intro i hi
    unfold Matrix.addRow Matrix.get
    dsimp only
    rw [if_pos hman]
    rw [Matrix.getD_set_self _ _ _ haLt, hbodyLen, if_pos hi]
    rw [Matrix.addRowArr_getD _ _ i (by omega) (by simp only [List.length_map]; omega)]
    rw [Matrix.getD_map_mul _ _ i (by omega)]
    rfl
  · intro r hr hrm c
    have hbne : m.refs.getD man 0 ≠ m.refs.getD r 0 := by
      rw [List.getD_eq_getElem _ _ (hman), List.getD_eq_getElem _ _ (hr)]
      intro he
      exact hrm ((hnd.getElem_inj_iff.mp he).symm)
    unfold Matrix.addRow Matrix.get
    dsimp only
    rw [Matrix.getD_set_ne _ _ _ hbne]

/-- Witness for C9 on the claim's own example `[[1,2],[3,4]]` with
manipulated row 0, source row 1 and factor -2. -/
theorem addRow_inplace_witness :
    (∀ i, i < 2 →
        ((Matrix.fromRows [[1, 2], [3, 4]]).addRow 0 1 (-2)).get 0 i =
          .ok ((Matrix.fromRows [[1, 2], [3, 4]]).dataAt 0 i +
            (Matrix.fromRows [[1, 2], [3, 4]]).dataAt 1 i * (-2))) ∧
    ((Matrix.fromRows [[1, 2], [3, 4]]).addRow 0 1 (-2)).values =
      [[-5, -6], [3, 4]] :=
  ⟨(addRow_inplace_spec (Matrix.fromRows [[1, 2], [3, 4]]) 0 1 (-2) 2
      (by decide) (by decide) (by decide) (by decide) (by decide)).1,
    (addRow_inplace_spec (Matrix.fromRows [[1, 2], [3, 4]]) 0 1 (-2) 2
      (by decide) (by decide) (by decide) (by decide) (by decide)).2.2⟩

/-- C10: `row(n)` hands out the reference to the stored row array, so a
write through that reference is visible through `get(n, c)`, while
`column(n)` materialises a fresh array whose address no row slot holds,
so writes through it leave every cell of the matrix unchanged. -/
theorem row_alias_column_copy (m : Matrix) (n : Nat)
    (hWF : ∀ a ∈ m.refs, a < m.heap.length) (hn : n < m.refs.length) :
    (∃ a, m.row n = some a ∧ ∀ (c : Nat) (v : ℤ),
        c < (m.heap.getD a []).length → (m.writeArr a c v).get n c = .ok v) ∧
    ((m.columnAlloc n).1.heap.getD (m.columnAlloc n).2 [] = m.column n) ∧
    (∀ (i : Nat) (v : ℤ) (r c : Nat),
        ((m.columnAlloc n).1.writeArr (m.columnAlloc n).2 i v).get r c =
          m.get r c) := by
  have hmem : m.refs.getD n 0 ∈ m.refs := by
    rw [List.getD_eq_getElem _ _ (hn)]
    exact m.refs.getElem_mem hn
  have haLt : m.refs.getD n 0 < m.heap.length := hWF _ hmem
  refine ⟨⟨m.refs.getD n 0, ?_, ?_⟩, ?_, ?_⟩
  · rw [Matrix.row, List.get?_eq_getElem?, List.getElem?_eq_getElem hn,
      List.getD_eq_getElem _ _ (hn)]
  · intro c v hc
    unfold Matrix.writeArr Matrix.get
    dsimp only
    rw [if_pos hn, Matrix.getD_set_self _ _ _ haLt, List.length_set,
      if_pos hc]
    rw [Matrix.getD_set_self _ _ _ hc]
  · unfold Matrix.columnAlloc
    dsimp only
    rw [List.getD_append_right _ _ _ _ (le_refl _), Nat.sub_self]
    rfl
  · intro i v r c
    unfold Matrix.columnAlloc Matrix.writeArr Matrix.get
    dsimp only
    by_cases hr : r < m.refs.length
    · have hmemr : m.refs.getD r 0 ∈ m.refs := by
        rw [List.getD_eq_getElem _ _ (hr)]
        exact m.refs.getElem_mem hr
      have hbLt : m.refs.getD r 0 < m.heap.length := hWF _ hmemr
      rw [if_pos hr, if_pos hr,
        Matrix.getD_set_ne _ _ _ (by omega),
        List.getD_append _ _ _ _ hbLt]
    · rw [if_neg hr, if_neg hr]

/-- C6 counterexample: on the square matrix `[[1]]` with amount 0, `pow`
does not terminate: the first decrement takes the counter to -1, which
is truthy, and it never reaches 0 again, so no fuel bound suffices for
the loop to return. -/
theorem pow_nonpositive_diverges_cx :
    ¬ ∃ (fuel : Nat) (r : Except MatErr (Matrix × Nat)),
        (Matrix.fromRows [[1]]).pow 0 fuel = some r := by
  rintro ⟨fuel, r, h⟩
  rw [Matrix.pow_eq_powLoop (by decide : (Matrix.fromRows [[1]]).colCount? = some (Matrix.fromRows [[1]]).rowCount) 0 fuel,
    Matrix.powLoop_nonpos (Matrix.fromRows [[1]]) 1 (by decide) (by decide)
      fuel 0 _ 0 (by decide) (by decide) (by decide)] at h
  cases h

/-- C6, amended: on every square matrix, `pow(1)` performs zero
multiplications and returns the original matrix unchanged, but for every
amount less than or equal to 0 the decrement-before-test loop never
terminates (it diverges for every fuel bound), because decrementing a
non-positive counter never yields 0. -/
theorem pow_one_noop_and_nonpositive_diverges (m : Matrix)
    (h : m.colCount? = some m.rowCount) :
    (∀ fuel, 1 ≤ fuel → m.pow 1 fuel = some (.ok (m, 0))) ∧
    (∀ amt : ℤ, amt ≤ 0 → ∀ fuel, m.pow amt fuel = none) := by
  constructor
  · intro fuel hf
    rw [Matrix.pow_eq_powLoop h]
    have := (Matrix.powLoop_ok m m.rowCount h rfl 0 fuel m 0 (by omega)
      rfl h).1
    simpa using this
  · intro amt hamt fuel
    rw [Matrix.pow_eq_powLoop h]
    exact Matrix.powLoop_nonpos m m.rowCount h rfl fuel amt m 0 hamt rfl h

/-- Witness for C6 on the square matrix `[[1,2],[3,4]]`: pow(1) is a
no-op with zero multiplications, and pow(-3) finds no result within fuel
7. -/
theorem pow_one_noop_witness :
    (Matrix.fromRows [[1, 2], [3, 4]]).pow 1 3 =
      some (.ok (Matrix.fromRows [[1, 2], [3, 4]], 0)) ∧
    (Matrix.fromRows [[1, 2], [3, 4]]).pow (-3) 7 = none :=
  ⟨(pow_one_noop_and_nonpositive_diverges (Matrix.fromRows [[1, 2], [3, 4]])
      (by decide)).1 3 (by decide),
    (pow_one_noop_and_nonpositive_diverges (Matrix.fromRows [[1, 2], [3, 4]])
      (by decide)).2 (-3) (by decide) 7⟩

/-- C7: on every square matrix, `pow(1)` returns the original matrix
itself with zero multiplications; `pow(2)` returns exactly the matrix
`multiply` produces for the self-product, after one multiplication; and
for every amount at least 2 (with enough fuel), `pow(amount)` performs
exactly amount - 1 self-multiplications and its result holds the
amount-th matrix power of the receiver's values. -/
theorem pow_counts_and_powers (m : Matrix)
    (h : m.colCount? = some m.rowCount) :
    (∀ fuel, 1 ≤ fuel → m.pow 1 fuel = some (.ok (m, 0))) ∧
    (m.multiply m = .ok (Matrix.mulF m m) ∧
      ∀ fuel, 2 ≤ fuel → m.pow 2 fuel = some (.ok (Matrix.mulF m m, 1))) ∧
    (∀ k : Nat, 2 ≤ k → ∀ fuel, k ≤ fuel →
        m.pow (k : ℤ) fuel =
          some (.ok (Matrix.mIter m m (k - 1), k - 1)) ∧
        (Matrix.mIter m m (k - 1)).values =
          Matrix.vpowSpec m.values (k - 1)) := by
  refine ⟨?_, ⟨?_, ?_⟩, ?_⟩
  · intro fuel hf
    rw [Matrix.pow_eq_powLoop h]
    have := (Matrix.powLoop_ok m m.rowCount h rfl 0 fuel m 0 (by omega)
      rfl h).1
    simpa using this
  · exact Matrix.multiply_eq_mulF h rfl h
  · intro fuel hf
    rw [Matrix.pow_eq_powLoop h]
    have := (Matrix.powLoop_ok m m.rowCount h rfl 1 fuel m 0 (by omega)
      rfl h).1
    have h2 : (((1 : Nat) : ℤ) + 1) = (2 : ℤ) := by norm_num
    rw [h2] at this
    simpa [Matrix.mIter] using this
  · intro k hk fuel hfuel
    have hcast : ((k : ℤ)) = ((k - 1 : Nat) : ℤ) + 1 := by
      push_cast [Nat.cast_sub (by omega : 1 ≤ k)]
      ring
    constructor
    · rw [Matrix.pow_eq_powLoop h, hcast]
      have := (Matrix.powLoop_ok m m.rowCount h rfl (k - 1) fuel m 0
        (by omega) rfl h).1
      simpa using this
    · exact (Matrix.mIter_values m m.rowCount h rfl (k - 1)).1

/-- Witness for C7 on `[[1,2],[3,4]]`: pow(3) with fuel 3 performs two
multiplications and returns the third power. -/
theorem pow_counts_witness :
    (Matrix.fromRows [[1, 2], [3, 4]]).pow ((3 : Nat) : ℤ) 3 =
      some (.ok (Matrix.mIter (Matrix.fromRows [[1, 2], [3, 4]])
        (Matrix.fromRows [[1, 2], [3, 4]]) 2, 2)) ∧
    (Matrix.mIter (Matrix.fromRows [[1, 2], [3, 4]])
        (Matrix.fromRows [[1, 2], [3, 4]]) 2).values =
      Matrix.vpowSpec (Matrix.fromRows [[1, 2], [3, 4]]).values 2 :=
  (pow_counts_and_powers (Matrix.fromRows [[1, 2], [3, 4]]) (by decide)).2.2
    3 (by decide) 3 (by decide)

/-- Witness for C10 on the matrix `[[1,2],[3,4]]` and row 0. -/
theorem row_alias_column_copy_witness :
    ∃ a, (Matrix.fromRows [[1, 2], [3, 4]]).row 0 = some a ∧
      ∀ (c : Nat) (v : ℤ),
        c < ((Matrix.fromRows [[1, 2], [3, 4]]).heap.getD a []).length →
          ((Matrix.fromRows [[1, 2], [3, 4]]).writeArr a c v).get 0 c =
            .ok v :=
  (row_alias_column_copy (Matrix.fromRows [[1, 2], [3, 4]]) 0
    (by decide) (by decide)).1

end Src
